import Mathlib

/-!
Verification of the multimodal prompt-assembly and training-step module
(`proteinchat/models/proteinchat_old.py`, class `ProteinChat`).

The module composes pretrained sub-models (a protein sequence encoder, a
structure encoder fed by a structure predictor, and a causal language model
with its tokenizer) into one training pipeline.  Those sub-models are
external black boxes; here they appear as abstract function fields of the
`ProteinChat` structure.  The glue logic of the module itself — regex
splitting of the prompt template, tokenize/embed/concatenate assembly,
attention-mask plumbing, and label construction — is embedded faithfully:

* tensors of shape (batch, length, hidden) are `List (List Vec)`; their
  (batch, length) attention masks are `List (List Int)`;
* concatenation along the sequence axis (`torch.cat(..., dim=1)`) is a
  row-wise `List.zipWith (· ++ ·)`;
* `re.split` on the two placeholder markers (keeping the captured markers)
  is the scanner `reSplitAux`;
* the Hugging Face tokenizer calls are modeled per string by abstract
  token functions, with the concrete padding / truncation / attention-mask
  construction of the library reproduced on top of them;
* fallible code (`raise ValueError` on a malformed prompt) returns
  `Except String`.

Debug-only statements in the source (the `breakpoint()` hook inside
`prompt_list_wrap`, which is a no-op when the debugger is disabled) and
device/dtype movement (`.to(device)`, dtype casts), which do not change
the value of any tensor, are modeled as identities.
-/

/-- The literal `'<proteinHere>'` placeholder (13 characters). -/
def markerProtein : List Char := ['<','p','r','o','t','e','i','n','H','e','r','e','>']

/-- The literal `'<structureHere>'` placeholder (15 characters). -/
def markerStructure : List Char := ['<','s','t','r','u','c','t','u','r','e','H','e','r','e','>']

/-- Scanner realizing `re.split(r'(<proteinHere>|<structureHere>)', p)` (source
line 228): scan left to right; at each position first try the `<proteinHere>`
alternative, then `<structureHere>`; on a match emit the accumulated segment
and the captured marker and continue after it; otherwise advance one
character.  The trailing segment is emitted at the end.  The two markers
cannot overlap each other or themselves (both contain `<` only at index 0),
so this is exactly the leftmost-match semantics of `re.split`. -/
def reSplitAux : List Char → List Char → List (List Char)
  | [], acc => [acc.reverse]
  | c :: rest, acc =>
    if markerProtein.isPrefixOf (c :: rest) then
      acc.reverse :: markerProtein :: reSplitAux ((c :: rest).drop markerProtein.length) []
    else if markerStructure.isPrefixOf (c :: rest) then
      acc.reverse :: markerStructure :: reSplitAux ((c :: rest).drop markerStructure.length) []
    else
      reSplitAux rest (c :: acc)
termination_by s _ => s.length
decreasing_by
  · simp [markerProtein]; omega
  · simp [markerStructure]; omega
  · simp

/-- Value of `re.split(r'(<proteinHere>|<structureHere>)', p)`. -/
def reSplitMarkers (p : List Char) : List (List Char) := reSplitAux p []

theorem reSplitAux_posP (s acc : List Char) (h : markerProtein.isPrefixOf s = true) :
    reSplitAux s acc =
      acc.reverse :: markerProtein :: reSplitAux (s.drop markerProtein.length) [] := by
  match s with
  | [] => simp [markerProtein, List.isPrefixOf] at h
  | c :: rest => rw [reSplitAux, if_pos h]

theorem reSplitAux_posS (s acc : List Char)
    (hp : ¬ markerProtein.isPrefixOf s = true)
    (hs : markerStructure.isPrefixOf s = true) :
    reSplitAux s acc =
      acc.reverse :: markerStructure :: reSplitAux (s.drop markerStructure.length) [] := by
  match s with
  | [] => simp [markerStructure, List.isPrefixOf] at hs
  | c :: rest => rw [reSplitAux, if_neg hp, if_pos hs]

theorem reSplitAux_step (c : Char) (rest acc : List Char)
    (hp : ¬ markerProtein.isPrefixOf (c :: rest) = true)
    (hs : ¬ markerStructure.isPrefixOf (c :: rest) = true) :
    reSplitAux (c :: rest) acc = reSplitAux rest (c :: acc) := by
  rw [reSplitAux, if_neg hp, if_neg hs]

theorem protein_not_isPrefixOf_structure (t : List Char) :
    markerProtein.isPrefixOf (markerStructure ++ t) = false := by
  simp [markerProtein, markerStructure, List.isPrefixOf]

theorem isPrefixOf_self_append (l t : List Char) : l.isPrefixOf (l ++ t) = true := by
  rw [ List.isPrefixOf_iff_prefix]
  exact List.prefix_append _ _

theorem reSplitAux_noMatch (s : List Char) (acc : List Char)
    (h : ∀ k, ¬ markerProtein.isPrefixOf (s.drop k) = true ∧
              ¬ markerStructure.isPrefixOf (s.drop k) = true) :
    reSplitAux s acc = [acc.reverse ++ s] := by
  induction s generalizing acc with
  | nil => simp [reSplitAux]
  | cons c rest ih =>
    rw [reSplitAux_step c rest acc (by simpa using (h 0).1) (by simpa using (h 0).2)]
    rw [ih (c :: acc) (fun k => by simpa using h (k + 1))]
    simp

theorem reSplitAux_throughP (a t : List Char) (acc : List Char)
    (h : ∀ k, k < a.length →
        ¬ markerProtein.isPrefixOf ((a ++ (markerProtein ++ t)).drop k) = true ∧
        ¬ markerStructure.isPrefixOf ((a ++ (markerProtein ++ t)).drop k) = true) :
    reSplitAux (a ++ (markerProtein ++ t)) acc =
      (acc.reverse ++ a) :: markerProtein :: reSplitAux t [] := by
  induction a generalizing acc with
  | nil =>
    rw [List.nil_append]
    rw [reSplitAux_posP _ acc (isPrefixOf_self_append _ _)]
    rw [List.drop_left]
    simp
  | cons c a ih =>
    rw [List.cons_append]
    rw [reSplitAux_step c _ acc (by simpa using (h 0 (by simp)).1)
        (by simpa using (h 0 (by simp)).2)]
    rw [ih (c :: acc) (fun k hk => by
      have := h (k + 1) (by simpa using hk)
      simpa using this)]
    simp

theorem reSplitAux_throughS (a t : List Char) (acc : List Char)
    (h : ∀ k, k < a.length →
        ¬ markerProtein.isPrefixOf ((a ++ (markerStructure ++ t)).drop k) = true ∧
        ¬ markerStructure.isPrefixOf ((a ++ (markerStructure ++ t)).drop k) = true) :
    reSplitAux (a ++ (markerStructure ++ t)) acc =
      (acc.reverse ++ a) :: markerStructure :: reSplitAux t [] := by
  induction a generalizing acc with
  | nil =>
    rw [List.nil_append]
    rw [reSplitAux_posS _ acc (by simp [protein_not_isPrefixOf_structure])
        (isPrefixOf_self_append _ _)]
    rw [List.drop_left]
    simp
  | cons c a ih =>
    rw [List.cons_append]
    rw [reSplitAux_step c _ acc (by simpa using (h 0 (by simp)).1)
        (by simpa using (h 0 (by simp)).2)]
    rw [ih (c :: acc) (fun k hk => by
      have := h (k + 1) (by simpa using hk)
      simpa using this)]
    simp

/-- Number of indices of `s` at which the string `m` occurs. -/
def occCount (m s : List Char) : Nat :=
  ((List.range s.length).filter fun i => m.isPrefixOf (s.drop i)).length

/-- A prompt string that contains exactly one occurrence of `<proteinHere>`
and exactly one occurrence of `<structureHere>`, with the protein
placeholder first. -/
def wellFormedPrompt (p : List Char) : Prop :=
  (∃ a b c, p = a ++ (markerProtein ++ (b ++ (markerStructure ++ c)))) ∧
  occCount markerProtein p = 1 ∧ occCount markerStructure p = 1

theorem isPrefixOf_nil_eq_false (m : List Char) (hm : m ≠ []) :
    m.isPrefixOf ([] : List Char) = false := by
  cases m with
  | nil => exact absurd rfl hm
  | cons a as => rfl

theorem occ_unique (m p : List Char) (i₀ : Nat) (hm : m ≠ [])
    (hcount : occCount m p = 1) (hi₀ : i₀ < p.length)
    (hi : m.isPrefixOf (p.drop i₀) = true) :
    ∀ k, m.isPrefixOf (p.drop k) = true → k = i₀ := by
  intro k hk
  obtain ⟨x, hx⟩ := List.length_eq_one.mp hcount
  have hmem₀ : i₀ ∈ (List.range p.length).filter fun i => m.isPrefixOf (p.drop i) := by
    rw [List.mem_filter]
    exact ⟨List.mem_range.mpr hi₀, hi⟩
  have hklt : k < p.length := by
    by_contra hge
    have : p.drop k = [] := by
      rw [List.drop_eq_nil_iff]
      omega
    rw [this, isPrefixOf_nil_eq_false m hm] at hk
    exact Bool.false_ne_true hk
  have hmemk : k ∈ (List.range p.length).filter fun i => m.isPrefixOf (p.drop i) := by
    rw [List.mem_filter]
    exact ⟨List.mem_range.mpr hklt, hk⟩
  rw [hx, List.mem_singleton] at hmem₀ hmemk
  omega

theorem drop_append_add (u v : List Char) (k : Nat) :
    (u ++ v).drop (u.length + k) = v.drop k := by
  rw [← List.drop_drop, List.drop_left]

/-- Main characterization of the scanner: a well-formed prompt splits into
exactly five segments `[a, <proteinHere>, b, <structureHere>, c]`. -/
theorem reSplitMarkers_of_wellFormed (p : List Char) (h : wellFormedPrompt p) :
    ∃ a b c, p = a ++ (markerProtein ++ (b ++ (markerStructure ++ c))) ∧
      reSplitMarkers p = [a, markerProtein, b, markerStructure, c] := by
  obtain ⟨⟨a, b, c, hp⟩, hcP, hcS⟩ := h
  refine ⟨a, b, c, hp, ?_⟩
  have hPlen : markerProtein.length = 13 := rfl
  have hSlen : markerStructure.length = 15 := rfl
  have hPne : markerProtein ≠ [] := by decide
  have hSne : markerStructure ≠ [] := by decide
  have hplen : p.length = a.length + 13 + b.length + 15 + c.length := by
    rw [hp]; simp [List.length_append, hPlen, hSlen]; omega
  have hdropP : p.drop a.length = markerProtein ++ (b ++ (markerStructure ++ c)) := by
    rw [hp, List.drop_left]
  have hdropS : p.drop (a.length + 13 + b.length) = markerStructure ++ c := by
    have hre : p = (a ++ (markerProtein ++ b)) ++ (markerStructure ++ c) := by
      rw [hp]; simp [List.append_assoc]
    rw [hre]
    have hlen : (a ++ (markerProtein ++ b)).length = a.length + 13 + b.length := by
      simp [List.length_append, hPlen]; omega
    rw [← hlen, List.drop_left]
  have hoccP : markerProtein.isPrefixOf (p.drop a.length) = true := by
    rw [hdropP]; exact isPrefixOf_self_append _ _
  have hoccS : markerStructure.isPrefixOf (p.drop (a.length + 13 + b.length)) = true := by
    rw [hdropS]; exact isPrefixOf_self_append _ _
  have uP := occ_unique markerProtein p a.length hPne hcP (by omega) hoccP
  have uS := occ_unique markerStructure p (a.length + 13 + b.length) hSne hcS (by omega) hoccS
  have h1 : reSplitAux p [] =
      a :: markerProtein :: reSplitAux (b ++ (markerStructure ++ c)) [] := by
    rw [hp]
    rw [reSplitAux_throughP a (b ++ (markerStructure ++ c)) []
      (fun k hk => by
        rw [← hp]
        constructor
        · intro hmatch
          have := uP k hmatch
          omega
        · intro hmatch
          have := uS k hmatch
          omega)]
    simp
  have hdropPk : ∀ k, (b ++ (markerStructure ++ c)).drop k = p.drop (a.length + 13 + k) := by
    intro k
    have hre : p = (a ++ markerProtein) ++ (b ++ (markerStructure ++ c)) := by
      rw [hp]; simp [List.append_assoc]
    rw [hre]
    have hlen : (a ++ markerProtein).length = a.length + 13 := by
      simp [List.length_append, hPlen]
    rw [← hlen]
    rw [drop_append_add]
  have h2 : reSplitAux (b ++ (markerStructure ++ c)) [] =
      b :: markerStructure :: reSplitAux c [] := by
    rw [reSplitAux_throughS b c []
      (fun k hk => by
        rw [hdropPk k]
        constructor
        · intro hmatch
          have := uP _ hmatch
          omega
        · intro hmatch
          have := uS _ hmatch
          omega)]
    simp
  have hdropCk : ∀ k, c.drop k = p.drop (a.length + 13 + b.length + 15 + k) := by
    intro k
    have hre : p = (a ++ (markerProtein ++ (b ++ markerStructure))) ++ c := by
      rw [hp]; simp [List.append_assoc]
    rw [hre]
    have hlen : (a ++ (markerProtein ++ (b ++ markerStructure))).length =
        a.length + 13 + b.length + 15 := by
      simp [List.length_append, hPlen, hSlen]; omega
    rw [← hlen, drop_append_add]
  have h3 : reSplitAux c [] = [c] := by
    rw [reSplitAux_noMatch c []
      (fun k => by
        rw [hdropCk k]
        constructor
        · intro hmatch
          have := uP _ hmatch
          omega
        · intro hmatch
          have := uS _ hmatch
          omega)]
    simp
  show reSplitAux p [] = _
  rw [h1, h2, h3]

/-- A hidden-dimension vector (its numeric contents are never inspected by
the glue code, only carried around). -/
abbrev Vec := List Int

/-- A (batch, length, hidden) embedding tensor, as batch of rows of vectors. -/
abbrev Emb := List (List Vec)

/-- A (batch, length) integer attention mask. -/
abbrev Mask := List (List Int)

/-- A (batch, length) boolean padding mask, as produced by the structure
predictor. -/
abbrev BMask := List (List Bool)

/-- The `ProteinChat` model state: the frozen external sub-models and the
configuration the glue code reads.  `C` and `K` are the (opaque) types of
the coordinate and confidence tensors consumed by the structure encoder.

* `llama_tok_plain t` — `llama_tokenizer(t, add_special_tokens=False)` token
  ids of one string; `llama_tok_special t` — the same with
  `add_special_tokens=True`;
* `pad_token_id`, `bos_token_id` — `llama_tokenizer.pad_token_id` /
  `.bos_token_id`;
* `embed_tokens` — the language model token-embedding table
  `llama_model.model.embed_tokens`, applied per token id;
* `protein_tokenizer` — the ESM batch converter (`batch_tokens` of a list of
  sequences); `protein_encoder` — `representations[33]` of the protein
  encoder, a (batch, length, 1280) tensor;
* `glm_llama_proj`, `str_llama_proj` — the two linear projections, applied
  per position vector;
* `str_encoder coords confidence mask` — `encoder_out[0]` of the structure
  encoder, a (length, batch, 512) tensor (sequence axis first, as in the
  source before the `permute([1, 0, 2])`);
* `alphafold` — `predict_structure` on the FASTA contents followed by the
  per-axis `np.concatenate` of source lines 161-164, returning the batched
  coordinate, confidence and padding-mask tensors;
* `llama_loss` — the teacher-forced language-model call of source lines
  331-337, returning the scalar loss;
* `max_txt_len`, `end_sym` — the corresponding constructor parameters. -/
structure ProteinChat (C K : Type) where
  llama_tok_plain : List Char → List Int
  llama_tok_special : List Char → List Int
  pad_token_id : Int
  bos_token_id : Int
  embed_tokens : Int → Vec
  protein_tokenizer : List (List Char) → List (List Int)
  protein_encoder : List (List Int) → List (List Vec)
  glm_llama_proj : Vec → Vec
  str_llama_proj : Vec → Vec
  str_encoder : C → K → BMask → List (List Vec)
  alphafold : List (List Char) → C × K × BMask
  llama_loss : Emb → Mask → List (List Int) → Int
  max_txt_len : Nat
  end_sym : List Char

/-- Tokenizer call with `add_special_tokens=False` and no padding (source
lines 239-244): per-string ids, attention mask all ones. -/
def llamaTokenizeNoSpecial {C K : Type} (M : ProteinChat C K) (ps : List (List Char)) :
    List (List Int) × Mask :=
  let ids := ps.map M.llama_tok_plain
  (ids, ids.map fun r => r.map fun _ => (1 : Int))

/-- Length of the longest row: the width a batch is padded to under
`padding=True` / `padding="longest"`. -/
def maxRowLen (rows : List (List Int)) : Nat :=
  rows.foldr (fun r m => max r.length m) 0

/-- Right-pad a row of token ids to width `L` with the pad token. -/
def padRight (pad : Int) (L : Nat) (r : List Int) : List Int :=
  r ++ List.replicate (L - r.length) pad

/-- Tokenizer call with `add_special_tokens=True, padding=True` (source
lines 245-247): per-string ids padded to the longest row with the pad token;
attention mask ones over the real tokens, zeros over the padding. -/
def llamaTokenizeSpecialPad {C K : Type} (M : ProteinChat C K) (ps : List (List Char)) :
    List (List Int) × Mask :=
  let ids := ps.map M.llama_tok_special
  let L := maxRowLen ids
  (ids.map (padRight M.pad_token_id L),
   ids.map fun r => List.replicate r.length (1 : Int) ++ List.replicate (L - r.length) 0)

/-- Tokenizer call of `forward` (source lines 293-300):
`padding="longest", truncation=True, max_length=max_txt_len,
add_special_tokens=False`, with `padding_side = "right"` (set on source line
289): per-string ids truncated to `max_txt_len`, then right-padded to the
longest (truncated) row. -/
def llamaTokenizeRegress {C K : Type} (M : ProteinChat C K) (ps : List (List Char)) :
    List (List Int) × Mask :=
  let ids := ps.map fun p => (M.llama_tok_plain p).take M.max_txt_len
  let L := maxRowLen ids
  (ids.map (padRight M.pad_token_id L),
   ids.map fun r => List.replicate r.length (1 : Int) ++ List.replicate (L - r.length) 0)

/-- The token-embedding table applied to a batch of token ids
(`llama_model.model.embed_tokens(input_ids)`). -/
def embedTokens {C K : Type} (M : ProteinChat C K) (ids : List (List Int)) : Emb :=
  ids.map fun r => r.map M.embed_tokens

/-- Concatenation of two batched tensors along the sequence axis, dim 1
(`torch.cat([x, y], dim=1)`). -/
def catD1 {α : Type} (xs ys : List (List α)) : List (List α) :=
  List.zipWith (· ++ ·) xs ys

/-- Condition checked on source line 229: the split has exactly five
segments with `<proteinHere>` second and `<structureHere>` fourth. -/
def promptFormatOk (p : List Char) : Prop :=
  (reSplitMarkers p).length = 5 ∧
  (reSplitMarkers p).getD 1 [] = markerProtein ∧
  (reSplitMarkers p).getD 3 [] = markerStructure

instance (p : List Char) : Decidable (promptFormatOk p) := by
  unfold promptFormatOk
  infer_instance

/-- Source lines 226-237, body of the per-prompt loop: split one prompt and
either return `(p_before, p_between, p_after)` (segments 0, 2, 4) or raise
the `ValueError`. -/
def splitPromptParts (p : List Char) :
    Except String (List Char × List Char × List Char) :=
  if promptFormatOk p then
    Except.ok ((reSplitMarkers p).getD 0 [], (reSplitMarkers p).getD 2 [],
      (reSplitMarkers p).getD 4 [])
  else
    Except.error
      ("Prompt format is incorrect. Expected format with proteinHere and structureHere placeholders.")

/-- The `for p in prompt` loop of source lines 226-237: collect the three
segments of every prompt, raising on the first malformed one. -/
def collectParts : List (List Char) → Except String (List (List Char × List Char × List Char))
  | [] => Except.ok []
  | p :: ps =>
    match splitPromptParts p with
    | Except.error e => Except.error e
    | Except.ok t =>
      match collectParts ps with
      | Except.error e => Except.error e
      | Except.ok ts => Except.ok (t :: ts)

/-- Segment 0 of the split (text before `<proteinHere>`). -/
def promptBefore (p : List Char) : List Char := (reSplitMarkers p).getD 0 []

/-- Segment 2 of the split (text between the two placeholders). -/
def promptBetween (p : List Char) : List Char := (reSplitMarkers p).getD 2 []

/-- Segment 4 of the split (text after `<structureHere>`). -/
def promptAfter (p : List Char) : List Char := (reSplitMarkers p).getD 4 []

/-- Source lines 221-276, `prompt_list_wrap`.  With a non-empty prompt list:
split every prompt (raising on a malformed one), tokenize the three segment
lists (no special tokens for before/between, special tokens plus padding for
after), embed them through the token-embedding table, and concatenate
`[p_before_embeds, img_embeds, p_between_embeds, str_embeds, p_after_embeds]`
along dim 1, with the attention masks concatenated correspondingly.  With an
empty prompt list (`if prompt:` falsy): concatenate the two modality blocks
only.  The `breakpoint()` on source line 250 is a debugger hook and changes
no value; it is modeled as a no-op. -/
def prompt_list_wrap {C K : Type} (M : ProteinChat C K) (img_embeds : Emb) (atts_img : Mask)
    (str_embeds : Emb) (atts_str : Mask) (prompt : List (List Char)) :
    Except String (Emb × Mask) :=
  if prompt = [] then
    Except.ok (catD1 img_embeds str_embeds, catD1 atts_img atts_str)
  else
    match collectParts prompt with
    | Except.error e => Except.error e
    | Except.ok parts =>
    let p_before_lst := parts.map fun t => t.1
    let p_between_lst := parts.map fun t => t.2.1
    let p_after_lst := parts.map fun t => t.2.2
    let p_before_tokens := llamaTokenizeNoSpecial M p_before_lst
    let p_between_tokens := llamaTokenizeNoSpecial M p_between_lst
    let p_after_tokens := llamaTokenizeSpecialPad M p_after_lst
    let p_before_embeds := embedTokens M p_before_tokens.1
    let p_between_embeds := embedTokens M p_between_tokens.1
    let p_after_embeds := embedTokens M p_after_tokens.1
    Except.ok
      (catD1 p_before_embeds (catD1 img_embeds (catD1 p_between_embeds
        (catD1 str_embeds p_after_embeds))),
       catD1 p_before_tokens.2 (catD1 atts_img (catD1 p_between_tokens.2
        (catD1 atts_str p_after_tokens.2))))

/-- Source lines 197-219, `encode_protein`: tokenize the sequences, run the
protein encoder (the duplicated encoder call on lines 203-209 overwrites its
first result and is modeled once; `squeeze(dim=2)` on a (batch, length, 1280)
tensor whose dim 2 is not of size 1 is the identity), project every position
into the language-model hidden size, and return an all-ones attention mask of
the embedding's (batch, length) shape. -/
def encode_protein {C K : Type} (M : ProteinChat C K) (seqs : List (List Char)) : Emb × Mask :=
  let batch_tokens := M.protein_tokenizer seqs
  let protein_embeds := M.protein_encoder batch_tokens
  let inputs_llama := protein_embeds.map fun r => r.map M.glm_llama_proj
  (inputs_llama, inputs_llama.map fun r => r.map fun _ => (1 : Int))

/-- Elementwise complement of a boolean mask (`~padding_mask`, source line
183). -/
def lnotMask (m : BMask) : BMask := m.map fun r => r.map fun b => !b

/-- Conversion of a boolean mask to integer dtype (`padding_mask.long()`,
source line 193). -/
def boolMaskToLong (m : BMask) : Mask :=
  m.map fun r => r.map fun b => if b then (1 : Int) else 0

/-- Source lines 169-194, `encode_str`: run the structure encoder on the
coordinates and confidences with the complemented padding mask, take
`encoder_out[0]`, permute the (length, batch) axes to batch-first, project
every position, and return the uncomplemented padding mask converted to
integers as the attention mask.  Dtype casts and device moves change no
value and are omitted. -/
def encode_str {C K : Type} (M : ProteinChat C K) (coords : C) (confidence : K)
    (padding_mask : BMask) : Emb × Mask :=
  let str_tokens := M.str_encoder coords confidence (lnotMask padding_mask)
  let str_tokens := str_tokens.transpose
  (str_tokens.map fun r => r.map M.str_llama_proj, boolMaskToLong padding_mask)

/-- FASTA contents built on source line 156: one record
`">sequence_{i}\n{seq}"` per sequence. -/
def fastaContents (seqs : List (List Char)) : List (List Char) :=
  seqs.enum.map fun p => ">sequence_".data ++ Nat.toDigits 10 p.1 ++ '\n' :: p.2

/-- Source lines 154-166, `reconstruct_protein`: build the FASTA records and
run the structure predictor (whose per-example outputs are concatenated
along the batch axis inside `alphafold`). -/
def reconstruct_protein {C K : Type} (M : ProteinChat C K) (seqs : List (List Char)) :
    C × K × BMask :=
  M.alphafold (fastaContents seqs)

/-- The `samples` record consumed by `forward`: parallel lists of sequences,
prompt templates and target texts. -/
structure Samples where
  seq : List (List Char)
  prompt : List (List Char)
  text_input : List (List Char)

/-- Source lines 291-300: append `end_sym` to every target text and tokenize
with right padding and truncation (`to_regress_tokens`). -/
def toRegressTokens {C K : Type} (M : ProteinChat C K) (text_input : List (List Char)) :
    List (List Int) × Mask :=
  llamaTokenizeRegress M (text_input.map fun t => t ++ M.end_sym)

/-- Source lines 302-304: `masked_fill` of the pad token id by the ignore
label -100 in the tokenized targets. -/
def maskedTargets {C K : Type} (M : ProteinChat C K) (text_input : List (List Char)) :
    List (List Int) :=
  (toRegressTokens M text_input).1.map fun r =>
    r.map fun t => if t = M.pad_token_id then -100 else t

/-- The sequence-axis size (`shape[1]`) of a rectangular batched tensor. -/
def dim1 {α : Type} (m : List (List α)) : Nat := (m.headD []).length

/-- Source lines 306-308: the all--100 block of shape
`[atts_img.shape[0], atts_img.shape[1] + 1]` (`empty_targets`). -/
def emptyTargets (atts_img : Mask) : List (List Int) :=
  List.replicate atts_img.length (List.replicate (dim1 atts_img + 1) (-100))

/-- Source line 309: `targets = torch.cat([empty_targets, targets], dim=1)`. -/
def forwardTargets {C K : Type} (M : ProteinChat C K) (atts_img : Mask)
    (text_input : List (List Char)) : List (List Int) :=
  catD1 (emptyTargets atts_img) (maskedTargets M text_input)

/-- Source lines 311-321: the embedded BOS column, one position per batch
element (`bos_embeds`). -/
def bosEmbeds {C K : Type} (M : ProteinChat C K) (batch_size : Nat) : Emb :=
  List.replicate batch_size [M.embed_tokens M.bos_token_id]

/-- Source line 322: `atts_bos = atts_img[:, :1]`. -/
def attsBos (atts_img : Mask) : Mask := atts_img.map fun r => r.take 1

/-- Source lines 324-325: `inputs_embeds = torch.cat([bos_embeds, img_embeds,
to_regress_embeds], dim=1)`. -/
def forwardInputsEmbeds {C K : Type} (M : ProteinChat C K) (img_embeds : Emb)
    (text_input : List (List Char)) : Emb :=
  catD1 (bosEmbeds M img_embeds.length)
    (catD1 img_embeds (embedTokens M (toRegressTokens M text_input).1))

/-- Source lines 326-328: `attention_mask = torch.cat([atts_bos, atts_img,
to_regress_tokens.attention_mask], dim=1)`. -/
def forwardAttentionMask {C K : Type} (M : ProteinChat C K) (atts_img : Mask)
    (text_input : List (List Char)) : Mask :=
  catD1 (attsBos atts_img) (catD1 atts_img (toRegressTokens M text_input).2)

/-- Source lines 278-338, `forward`: reconstruct the structures, encode both
modalities, fuse them with the prompt, build the label tensor, the input
embeddings and the attention mask, and call the language model for the
loss. -/
def forward {C K : Type} (M : ProteinChat C K) (samples : Samples) : Except String Int :=
  let str_tokens := reconstruct_protein M samples.seq
  let enc_str := encode_str M str_tokens.1 str_tokens.2.1 str_tokens.2.2
  let enc_prot := encode_protein M samples.seq
  match prompt_list_wrap M enc_prot.1 enc_prot.2 enc_str.1 enc_str.2 samples.prompt with
  | Except.error e => Except.error e
  | Except.ok wrapped =>
    Except.ok (M.llama_loss
      (forwardInputsEmbeds M wrapped.1 samples.text_input)
      (forwardAttentionMask M wrapped.2 samples.text_input)
      (forwardTargets M wrapped.2 samples.text_input))

theorem getElem?_zipWith {α β γ : Type} (f : α → β → γ) (xs : List α) (ys : List β) (i : Nat) :
    (List.zipWith f xs ys)[i]? = (xs[i]?).bind fun x => (ys[i]?).map fun y => f x y := by
  induction xs generalizing ys i with
  | nil => simp
  | cons x xs ih =>
    cases ys with
    | nil => simp
    | cons y ys =>
      cases i with
      | zero => simp
      | succ n => simpa using ih ys n

theorem getElem?_catD1 {α : Type} (xs ys : List (List α)) (i : Nat) :
    (catD1 xs ys)[i]? = (xs[i]?).bind fun x => (ys[i]?).map fun y => x ++ y :=
  getElem?_zipWith _ xs ys i

theorem getElem?_catD1_of_lt {α : Type} (xs ys : List (List α)) (i : Nat)
    (hx : i < xs.length) (hy : i < ys.length) :
    (catD1 xs ys)[i]? = some (xs.getD i [] ++ ys.getD i []) := by
  rw [getElem?_catD1, List.getElem?_eq_getElem hx, List.getElem?_eq_getElem hy]
  simp [List.getD_eq_getElem?_getD, List.getElem?_eq_getElem hx, List.getElem?_eq_getElem hy]

theorem length_catD1 {α : Type} (xs ys : List (List α)) :
    (catD1 xs ys).length = min xs.length ys.length := by
  simp [catD1]

theorem maxRowLen_ge (rows : List (List Int)) (r : List Int) (hr : r ∈ rows) :
    r.length ≤ maxRowLen rows := by
  induction rows with
  | nil => cases hr
  | cons a as ih =>
    rcases List.mem_cons.mp hr with h | h
    · subst h; simp [maxRowLen]
    · have hle := ih h
      simp only [maxRowLen, List.foldr_cons] at hle ⊢
      exact le_trans hle (le_max_right _ _)

theorem padRight_length (pad : Int) (L : Nat) (r : List Int) (h : r.length ≤ L) :
    (padRight pad L r).length = L := by
  simp [padRight]
  omega

/-- Double index into a batched tensor: row `i`, position `j`. -/
def entry2 {α : Type} (m : List (List α)) (i j : Nat) : Option α :=
  (m[i]?).bind fun r => r[j]?

theorem entry2_map_map {α β : Type} (f : α → β) (m : List (List α)) (i j : Nat) :
    entry2 (m.map fun r => r.map f) i j = (entry2 m i j).map f := by
  unfold entry2
  rw [List.getElem?_map]
  cases m[i]? with
  | none => rfl
  | some r => simp

theorem getElem?_map_length {α β : Type} (f : α → β) (m : List (List α)) (i : Nat) :
    (((m.map fun r => r.map f))[i]?).map List.length = (m[i]?).map List.length := by
  rw [List.getElem?_map]
  cases m[i]? <;> simp

theorem splitPromptParts_ok_iff (p : List Char) :
    (∃ v, splitPromptParts p = Except.ok v) ↔ promptFormatOk p := by
  unfold splitPromptParts
  by_cases h : promptFormatOk p
  · simp [if_pos h, h]
  · simp [if_neg h, h]

theorem collectParts_ok_map (l : List (List Char))
    (g : List Char → List Char × List Char × List Char)
    (h : ∀ p ∈ l, splitPromptParts p = Except.ok (g p)) :
    collectParts l = Except.ok (l.map g) := by
  induction l with
  | nil => rfl
  | cons p ps ih =>
    have hp := h p (List.mem_cons_self p ps)
    have hps := ih fun q hq => h q (List.mem_cons_of_mem p hq)
    simp [collectParts, hp, hps]

theorem collectParts_isOk_iff (l : List (List Char)) :
    (∃ ys, collectParts l = Except.ok ys) ↔ ∀ p ∈ l, promptFormatOk p := by
  induction l with
  | nil => simp [collectParts]
  | cons p ps ih =>
    constructor
    · rintro ⟨ys, hys⟩
      intro q hq
      rcases List.mem_cons.mp hq with h | h
      · subst h
        rw [← splitPromptParts_ok_iff]
        cases hsp : splitPromptParts q with
        | ok v => exact ⟨v, rfl⟩
        | error e => rw [collectParts, hsp] at hys; cases hys
      · cases hsp : splitPromptParts p with
        | ok v =>
          have hok : ∃ zs, collectParts ps = Except.ok zs := by
            cases hcp : collectParts ps with
            | ok zs => exact ⟨zs, rfl⟩
            | error e => rw [collectParts, hsp, hcp] at hys; cases hys
          exact ih.mp hok q h
        | error e => rw [collectParts, hsp] at hys; cases hys
    · intro hall
      have hp : promptFormatOk p := hall p (List.mem_cons_self p ps)
      obtain ⟨v, hv⟩ := (splitPromptParts_ok_iff p).mpr hp
      obtain ⟨zs, hzs⟩ := ih.mpr fun q hq => hall q (List.mem_cons_of_mem p hq)
      exact ⟨v :: zs, by rw [collectParts, hv, hzs]⟩

theorem wellFormed_splitParts (p : List Char) (h : wellFormedPrompt p) :
    promptFormatOk p ∧
      splitPromptParts p = Except.ok (promptBefore p, promptBetween p, promptAfter p) := by
  obtain ⟨a, b, c, hp, hsplit⟩ := reSplitMarkers_of_wellFormed p h
  have hok : promptFormatOk p := by
    unfold promptFormatOk
    rw [hsplit]
    exact ⟨rfl, rfl, rfl⟩
  refine ⟨hok, ?_⟩
  unfold splitPromptParts
  rw [if_pos hok]
  rfl

theorem prompt_list_wrap_eq_of_parts {C K : Type} (M : ProteinChat C K)
    (img_embeds str_embeds : Emb) (atts_img atts_str : Mask) (prompt : List (List Char))
    (parts : List (List Char × List Char × List Char))
    (hne : prompt ≠ []) (hcp : collectParts prompt = Except.ok parts) :
    prompt_list_wrap M img_embeds atts_img str_embeds atts_str prompt = Except.ok
      (catD1 (embedTokens M (llamaTokenizeNoSpecial M (parts.map fun t => t.1)).1)
        (catD1 img_embeds
          (catD1 (embedTokens M (llamaTokenizeNoSpecial M (parts.map fun t => t.2.1)).1)
            (catD1 str_embeds
              (embedTokens M (llamaTokenizeSpecialPad M (parts.map fun t => t.2.2)).1)))),
       catD1 (llamaTokenizeNoSpecial M (parts.map fun t => t.1)).2
        (catD1 atts_img
          (catD1 (llamaTokenizeNoSpecial M (parts.map fun t => t.2.1)).2
            (catD1 atts_str
              (llamaTokenizeSpecialPad M (parts.map fun t => t.2.2)).2)))) := by
  unfold prompt_list_wrap
  rw [if_neg hne, hcp]

theorem getD_catD1_of_lt {α : Type} (xs ys : List (List α)) (i : Nat)
    (hx : i < xs.length) (hy : i < ys.length) :
    (catD1 xs ys).getD i [] = xs.getD i [] ++ ys.getD i [] := by
  rw [List.getD_eq_getElem?_getD, getElem?_catD1_of_lt xs ys i hx hy]
  rfl

/-- Claim C2: `prompt_list_wrap` succeeds exactly when the prompt list is
empty (the no-prompt branch) or every prompt splits into five segments with
`<proteinHere>` second and `<structureHere>` fourth; equivalently, it raises
the format `ValueError` precisely when some prompt in a non-empty prompt
list is malformed in that sense, and for no other prompt shape. -/
theorem prompt_list_wrap_ok_iff {C K : Type} (M : ProteinChat C K)
    (img_embeds str_embeds : Emb) (atts_img atts_str : Mask) (prompt : List (List Char)) :
    (∃ v, prompt_list_wrap M img_embeds atts_img str_embeds atts_str prompt = Except.ok v) ↔
      (prompt = [] ∨ ∀ p ∈ prompt, promptFormatOk p) := by
  unfold prompt_list_wrap
  by_cases hp : prompt = []
  · rw [if_pos hp]
    simp [hp]
  · rw [if_neg hp]
    constructor
    · rintro ⟨v, hv⟩
      right
      rw [← collectParts_isOk_iff]
      cases hcp : collectParts prompt with
      | ok ys => exact ⟨ys, rfl⟩
      | error e => rw [hcp] at hv; cases hv
    · intro h
      rcases h with h | h
      · exact absurd h hp
      · obtain ⟨ys, hys⟩ := (collectParts_isOk_iff prompt).mpr h
        rw [hys]
        exact ⟨_, rfl⟩

/-- Claim C3: in the label construction of `forward` (source lines 302-304),
every position of the tokenized target whose token id equals the pad token
id is replaced by the ignore label -100, and every position whose id differs
keeps its token id. -/
theorem maskedTargets_pad_ignore {C K : Type} (M : ProteinChat C K)
    (text_input : List (List Char)) (i j : Nat) :
    entry2 (maskedTargets M text_input) i j =
      (entry2 (toRegressTokens M text_input).1 i j).map
        fun t => if t = M.pad_token_id then -100 else t := by
  unfold maskedTargets
  exact entry2_map_map _ _ i j

/-- Claim C5: `encode_str` invokes the structure encoder on the elementwise
logical complement of the input padding mask, while the attention mask it
returns is the uncomplemented padding mask converted to integers; and
`encode_protein` returns an all-ones attention mask of the same
(batch, length) shape as its embedding. -/
theorem encode_masks_spec {C K : Type} (M : ProteinChat C K) (coords : C) (confidence : K)
    (padding_mask : BMask) (seqs : List (List Char)) :
    (∃ inv, encode_str M coords confidence padding_mask =
        ((M.str_encoder coords confidence inv).transpose.map fun r =>
           r.map M.str_llama_proj,
         boolMaskToLong padding_mask) ∧
        ∀ i j, entry2 inv i j = (entry2 padding_mask i j).map fun b => !b) ∧
    (∀ i j, entry2 (encode_str M coords confidence padding_mask).2 i j =
        (entry2 padding_mask i j).map fun b => if b then (1 : Int) else 0) ∧
    (∀ i j, entry2 (encode_protein M seqs).2 i j =
        (entry2 (encode_protein M seqs).1 i j).map fun _ => (1 : Int)) ∧
    (∀ i : Nat, (((encode_protein M seqs).2 : List (List Int))[i]?).map
          (fun r : List Int => r.length) =
        (((encode_protein M seqs).1 : List (List Vec))[i]?).map
          (fun r : List Vec => r.length)) := by
  exact ⟨⟨lnotMask padding_mask, rfl, fun i j => entry2_map_map _ _ i j⟩,
    fun i j => entry2_map_map _ _ i j,
    fun i j => entry2_map_map (fun _ => (1 : Int)) (encode_protein M seqs).1 i j,
    fun i => getElem?_map_length (fun _ => (1 : Int)) (encode_protein M seqs).1 i⟩

/-- Claim C1: for a non-empty prompt list in which every prompt contains
exactly one `<proteinHere>` and exactly one `<structureHere>` placeholder,
in that order, `prompt_list_wrap` does not raise, and every row of the
returned embedding tensor is exactly prefix-embedding ++ sequence-embedding
block ++ middle-embedding ++ structure-embedding block ++ suffix-embedding,
so its sequence length is the sum of the five pieces' lengths. -/
theorem prompt_list_wrap_wellFormed_assembly {C K : Type} (M : ProteinChat C K)
    (img_embeds str_embeds : Emb) (atts_img atts_str : Mask) (prompt : List (List Char))
    (hwf : ∀ p ∈ prompt, wellFormedPrompt p) (hne : prompt ≠ [])
    (hib : img_embeds.length = prompt.length)
    (hsb : str_embeds.length = prompt.length) :
    ∃ we wa, prompt_list_wrap M img_embeds atts_img str_embeds atts_str prompt
        = Except.ok (we, wa) ∧
      we = catD1 (embedTokens M (llamaTokenizeNoSpecial M (prompt.map promptBefore)).1)
            (catD1 img_embeds
              (catD1 (embedTokens M (llamaTokenizeNoSpecial M (prompt.map promptBetween)).1)
                (catD1 str_embeds
                  (embedTokens M (llamaTokenizeSpecialPad M (prompt.map promptAfter)).1)))) ∧
      ∀ i, i < prompt.length →
        we[i]? = some
          ((embedTokens M (llamaTokenizeNoSpecial M (prompt.map promptBefore)).1).getD i [] ++
            (img_embeds.getD i [] ++
              ((embedTokens M (llamaTokenizeNoSpecial M (prompt.map promptBetween)).1).getD i
                  [] ++
                (str_embeds.getD i [] ++
                  (embedTokens M (llamaTokenizeSpecialPad M (prompt.map promptAfter)).1).getD i
                    [])))) ∧
        (we.getD i []).length =
          ((embedTokens M (llamaTokenizeNoSpecial M (prompt.map promptBefore)).1).getD i
              []).length +
            ((img_embeds.getD i []).length +
              (((embedTokens M (llamaTokenizeNoSpecial M (prompt.map promptBetween)).1).getD i
                  []).length +
                ((str_embeds.getD i []).length +
                  ((embedTokens M (llamaTokenizeSpecialPad M (prompt.map promptAfter)).1).getD i
                      []).length))) := by
  have hsp : ∀ p ∈ prompt, splitPromptParts p =
      Except.ok (promptBefore p, promptBetween p, promptAfter p) :=
    fun p hp => (wellFormed_splitParts p (hwf p hp)).2
  have hcp : collectParts prompt = Except.ok
      (prompt.map fun p => (promptBefore p, promptBetween p, promptAfter p)) :=
    collectParts_ok_map prompt _ hsp
  have heq := prompt_list_wrap_eq_of_parts M img_embeds str_embeds atts_img atts_str prompt _
    hne hcp
  have hwrap : prompt_list_wrap M img_embeds atts_img str_embeds atts_str prompt = Except.ok
      (catD1 (embedTokens M (llamaTokenizeNoSpecial M (prompt.map promptBefore)).1)
        (catD1 img_embeds
          (catD1 (embedTokens M (llamaTokenizeNoSpecial M (prompt.map promptBetween)).1)
            (catD1 str_embeds
              (embedTokens M (llamaTokenizeSpecialPad M (prompt.map promptAfter)).1)))),
       catD1 (llamaTokenizeNoSpecial M (prompt.map promptBefore)).2
        (catD1 atts_img
          (catD1 (llamaTokenizeNoSpecial M (prompt.map promptBetween)).2
            (catD1 atts_str
              (llamaTokenizeSpecialPad M (prompt.map promptAfter)).2)))) := by
    rw [heq]
    simp only [List.map_map]
    rfl
  refine ⟨_, _, hwrap, rfl, ?_⟩
  intro i hi
  have l1 : (embedTokens M (llamaTokenizeNoSpecial M (prompt.map promptBefore)).1).length
      = prompt.length := by
    simp [embedTokens, llamaTokenizeNoSpecial]
  have l3 : (embedTokens M (llamaTokenizeNoSpecial M (prompt.map promptBetween)).1).length
      = prompt.length := by
    simp [embedTokens, llamaTokenizeNoSpecial]
  have l5 : (embedTokens M (llamaTokenizeSpecialPad M (prompt.map promptAfter)).1).length
      = prompt.length := by
    simp [embedTokens, llamaTokenizeSpecialPad]
  have l45 : (catD1 str_embeds
      (embedTokens M (llamaTokenizeSpecialPad M (prompt.map promptAfter)).1)).length
      = prompt.length := by
    rw [length_catD1, hsb, l5]
    omega
  have l345 : (catD1 (embedTokens M (llamaTokenizeNoSpecial M (prompt.map promptBetween)).1)
      (catD1 str_embeds
        (embedTokens M (llamaTokenizeSpecialPad M (prompt.map promptAfter)).1))).length
      = prompt.length := by
    rw [length_catD1, l3, l45]
    omega
  have l2345 : (catD1 img_embeds
      (catD1 (embedTokens M (llamaTokenizeNoSpecial M (prompt.map promptBetween)).1)
        (catD1 str_embeds
          (embedTokens M (llamaTokenizeSpecialPad M (prompt.map promptAfter)).1)))).length
      = prompt.length := by
    rw [length_catD1, hib, l345]
    omega
  have hrow : (catD1 (embedTokens M (llamaTokenizeNoSpecial M (prompt.map promptBefore)).1)
      (catD1 img_embeds
        (catD1 (embedTokens M (llamaTokenizeNoSpecial M (prompt.map promptBetween)).1)
          (catD1 str_embeds
            (embedTokens M (llamaTokenizeSpecialPad M (prompt.map promptAfter)).1))))).getD i []
      = (embedTokens M (llamaTokenizeNoSpecial M (prompt.map promptBefore)).1).getD i [] ++
          (img_embeds.getD i [] ++
            ((embedTokens M (llamaTokenizeNoSpecial M (prompt.map promptBetween)).1).getD i
                [] ++
              (str_embeds.getD i [] ++
                (embedTokens M (llamaTokenizeSpecialPad M (prompt.map promptAfter)).1).getD i
                  []))) := by
    rw [getD_catD1_of_lt _ _ i (by omega) (by omega)]
    rw [getD_catD1_of_lt _ _ i (by omega) (by omega)]
    rw [getD_catD1_of_lt _ _ i (by omega) (by omega)]
    rw [getD_catD1_of_lt _ _ i (by omega) (by omega)]
  have hiw : i < (catD1 (embedTokens M (llamaTokenizeNoSpecial M (prompt.map promptBefore)).1)
      (catD1 img_embeds
        (catD1 (embedTokens M (llamaTokenizeNoSpecial M (prompt.map promptBetween)).1)
          (catD1 str_embeds
            (embedTokens M (llamaTokenizeSpecialPad M (prompt.map promptAfter)).1))))).length := by
    rw [length_catD1, l1, l2345]
    omega
  have hsome : (catD1 (embedTokens M (llamaTokenizeNoSpecial M (prompt.map promptBefore)).1)
      (catD1 img_embeds
        (catD1 (embedTokens M (llamaTokenizeNoSpecial M (prompt.map promptBetween)).1)
          (catD1 str_embeds
            (embedTokens M (llamaTokenizeSpecialPad M (prompt.map promptAfter)).1)))))[i]?
      = some ((catD1 (embedTokens M (llamaTokenizeNoSpecial M (prompt.map promptBefore)).1)
      (catD1 img_embeds
        (catD1 (embedTokens M (llamaTokenizeNoSpecial M (prompt.map promptBetween)).1)
          (catD1 str_embeds
            (embedTokens M (llamaTokenizeSpecialPad M (prompt.map promptAfter)).1))))).getD i
        []) := by
    rw [List.getElem?_eq_getElem hiw, List.getD_eq_getElem?_getD,
      List.getElem?_eq_getElem hiw]
    rfl
  constructor
  · rw [hsome, hrow]
  · rw [hrow]
    simp [List.length_append]

theorem getElem?_eq_some_getD {α : Type} (l : List (List α)) (i : Nat) (h : i < l.length) :
    l[i]? = some (l.getD i []) := by
  rw [List.getElem?_eq_getElem h, List.getD_eq_getElem?_getD, List.getElem?_eq_getElem h]
  rfl

theorem getD_map_nil {α β : Type} (f : List α → List β) (hf : f [] = []) (l : List (List α))
    (i : Nat) : (l.map f).getD i [] = f (l.getD i []) := by
  rw [List.getD_eq_getElem?_getD, List.getD_eq_getElem?_getD, List.getElem?_map]
  cases l[i]? with
  | none => simpa using hf.symm
  | some r => rfl

theorem getD_replicate_of_lt {α : Type} (n : Nat) (a : List α) (i : Nat) (h : i < n) :
    (List.replicate n a).getD i [] = a := by
  rw [List.getD_eq_getElem?_getD, List.getElem?_replicate, if_pos h]
  rfl

theorem headD_mem {α : Type} (l : List (List α)) (h : l ≠ []) : l.headD [] ∈ l := by
  cases l with
  | nil => exact absurd rfl h
  | cons a as => exact List.mem_cons_self a as

theorem getD_mem {α : Type} (l : List (List α)) (i : Nat) (h : i < l.length) :
    l.getD i [] ∈ l := by
  rw [List.getD_eq_getElem?_getD, List.getElem?_eq_getElem h]
  exact List.getElem_mem h

/-- A tiny concrete instantiation of the external sub-models, used to
exercise the theorems on explicit inputs. -/
def trivialModel : ProteinChat Unit Unit where
  llama_tok_plain := fun s => [Int.ofNat s.length]
  llama_tok_special := fun s => [Int.ofNat s.length]
  pad_token_id := 0
  bos_token_id := 1
  embed_tokens := fun t => [t]
  protein_tokenizer := fun seqs => seqs.map fun s => [Int.ofNat s.length]
  protein_encoder := fun toks => toks.map fun r => r.map fun t => [t]
  glm_llama_proj := fun v => v
  str_llama_proj := fun v => v
  str_encoder := fun _ _ m => m.map fun r => r.map fun _ => ([] : Vec)
  alphafold := fun _ => ((), (), [[true]])
  llama_loss := fun e m t => Int.ofNat (e.length + m.length + t.length)
  max_txt_len := 4
  end_sym := ['\n']

/-- Witness for claim C1 at a concrete well-formed prompt: the two
placeholders back to back, batch size one. -/
theorem prompt_list_wrap_wellFormed_assembly_app :
    (∀ p ∈ [markerProtein ++ markerStructure], wellFormedPrompt p) ∧
    ([markerProtein ++ markerStructure] ≠ ([] : List (List Char))) ∧
    ([[[(5 : Int)]]] : Emb).length = [markerProtein ++ markerStructure].length ∧
    ([[[(6 : Int)]]] : Emb).length = [markerProtein ++ markerStructure].length ∧
    ∃ we wa, prompt_list_wrap trivialModel [[[(5 : Int)]]] [[1]] [[[(6 : Int)]]] [[1]]
        [markerProtein ++ markerStructure] = Except.ok (we, wa) ∧
      we = catD1 (embedTokens trivialModel (llamaTokenizeNoSpecial trivialModel
              ([markerProtein ++ markerStructure].map promptBefore)).1)
            (catD1 [[[(5 : Int)]]]
              (catD1 (embedTokens trivialModel (llamaTokenizeNoSpecial trivialModel
                  ([markerProtein ++ markerStructure].map promptBetween)).1)
                (catD1 [[[(6 : Int)]]]
                  (embedTokens trivialModel (llamaTokenizeSpecialPad trivialModel
                    ([markerProtein ++ markerStructure].map promptAfter)).1)))) ∧
      ∀ i, i < [markerProtein ++ markerStructure].length →
        we[i]? = some
          ((embedTokens trivialModel (llamaTokenizeNoSpecial trivialModel
              ([markerProtein ++ markerStructure].map promptBefore)).1).getD i [] ++
            (([[[(5 : Int)]]] : Emb).getD i [] ++
              ((embedTokens trivialModel (llamaTokenizeNoSpecial trivialModel
                  ([markerProtein ++ markerStructure].map promptBetween)).1).getD i [] ++
                (([[[(6 : Int)]]] : Emb).getD i [] ++
                  (embedTokens trivialModel (llamaTokenizeSpecialPad trivialModel
                    ([markerProtein ++ markerStructure].map promptAfter)).1).getD i [])))) ∧
        (we.getD i []).length =
          ((embedTokens trivialModel (llamaTokenizeNoSpecial trivialModel
              ([markerProtein ++ markerStructure].map promptBefore)).1).getD i []).length +
            ((([[[(5 : Int)]]] : Emb).getD i []).length +
              (((embedTokens trivialModel (llamaTokenizeNoSpecial trivialModel
                  ([markerProtein ++ markerStructure].map promptBetween)).1).getD i []).length +
                ((([[[(6 : Int)]]] : Emb).getD i []).length +
                  ((embedTokens trivialModel (llamaTokenizeSpecialPad trivialModel
                    ([markerProtein ++ markerStructure].map promptAfter)).1).getD i
                      []).length))) := by
  have hwf : ∀ p ∈ [markerProtein ++ markerStructure], wellFormedPrompt p := by
    intro p hp
    rw [List.mem_singleton] at hp
    subst hp
    refine ⟨⟨[], [], [], by simp⟩, by decide, by decide⟩
  exact ⟨hwf, by decide, rfl, rfl,
    prompt_list_wrap_wellFormed_assembly trivialModel [[[(5 : Int)]]] [[[(6 : Int)]]]
      [[1]] [[1]] [markerProtein ++ markerStructure] hwf (by decide) rfl rfl⟩

/-- Claim C4: the ignore-label block prepended to the targets in `forward`
has per-row length exactly the fused prompt-embedding sequence length plus
one (the BOS position), and in the concatenated label tensor every position
covering BOS and the fused embeddings carries the sentinel -100. -/
theorem forward_ignore_block_len {C K : Type} (M : ProteinChat C K)
    (img_embeds : Emb) (atts_img : Mask) (text_input : List (List Char))
    (hd : dim1 atts_img = dim1 img_embeds) :
    (∀ r ∈ emptyTargets atts_img,
      r.length = dim1 img_embeds + 1 ∧ ∀ x ∈ r, x = (-100 : Int)) ∧
    (∀ i j : Nat, i < (forwardTargets M atts_img text_input).length →
      j < dim1 img_embeds + 1 →
      entry2 (forwardTargets M atts_img text_input) i j = some (-100)) := by
  constructor
  · intro r hr
    have hreq : r = List.replicate (dim1 atts_img + 1) (-100) :=
      List.eq_of_mem_replicate hr
    subst hreq
    exact ⟨by simp [hd], fun x hx => List.eq_of_mem_replicate hx⟩
  · intro i j hi hj
    unfold forwardTargets at hi ⊢
    rw [length_catD1] at hi
    have hie : i < (emptyTargets atts_img).length := by omega
    have him : i < (maskedTargets M text_input).length := by omega
    unfold entry2
    rw [getElem?_catD1_of_lt _ _ i hie him]
    have hrow : (emptyTargets atts_img).getD i [] =
        List.replicate (dim1 atts_img + 1) (-100) := by
      unfold emptyTargets
      exact getD_replicate_of_lt _ _ i (by simpa [emptyTargets] using hie)
    rw [Option.some_bind, hrow]
    rw [List.getElem?_append]
    rw [if_pos (show j < (List.replicate (dim1 atts_img + 1) (-100 : Int)).length by
      simp; omega)]
    rw [List.getElem?_replicate, if_pos (by omega)]

/-- Witness for claim C4 at a concrete one-row mask and matching fused
embedding. -/
theorem forward_ignore_block_len_app :
    dim1 ([[1, 1]] : Mask) = dim1 ([[[7], [8]]] : Emb) ∧
    ((∀ r ∈ emptyTargets [[1, 1]],
      r.length = dim1 ([[[7], [8]]] : Emb) + 1 ∧ ∀ x ∈ r, x = (-100 : Int)) ∧
    (∀ i j : Nat, i < (forwardTargets trivialModel [[1, 1]] [['y']]).length →
      j < dim1 ([[[7], [8]]] : Emb) + 1 →
      entry2 (forwardTargets trivialModel [[1, 1]] [['y']]) i j = some (-100))) :=
  ⟨rfl, forward_ignore_block_len trivialModel [[[7], [8]]] [[1, 1]] [['y']] rfl⟩

/-- Claim C7: in `forward`, every target string gets `end_sym` appended
before tokenization; the tokenized targets are the per-string token ids
truncated at `max_txt_len` and right-padded with the pad token to the
longest row, with the matching ones-then-zeros attention mask; and the
language-model inputs and attention mask are the row-wise concatenations
[BOS embedding, fused prompt embedding, target embedding] and
[BOS mask column, fused prompt mask, target mask]. -/
theorem forward_lm_input_assembly {C K : Type} (M : ProteinChat C K)
    (img_embeds : Emb) (atts_img : Mask) (text_input : List (List Char))
    (hib : img_embeds.length = text_input.length)
    (hab : atts_img.length = text_input.length) :
    ((toRegressTokens M text_input).1 =
      (text_input.map fun t => (M.llama_tok_plain (t ++ M.end_sym)).take M.max_txt_len).map
        (padRight M.pad_token_id
          (maxRowLen (text_input.map fun t =>
            (M.llama_tok_plain (t ++ M.end_sym)).take M.max_txt_len)))) ∧
    ((toRegressTokens M text_input).2 =
      (text_input.map fun t => (M.llama_tok_plain (t ++ M.end_sym)).take M.max_txt_len).map
        fun r => List.replicate r.length (1 : Int) ++
          List.replicate (maxRowLen (text_input.map fun t =>
            (M.llama_tok_plain (t ++ M.end_sym)).take M.max_txt_len) - r.length) 0) ∧
    (∀ i, i < text_input.length →
      (forwardInputsEmbeds M img_embeds text_input)[i]? =
        some ([M.embed_tokens M.bos_token_id] ++
          (img_embeds.getD i [] ++
            ((toRegressTokens M text_input).1.getD i []).map M.embed_tokens)) ∧
      (forwardAttentionMask M atts_img text_input)[i]? =
        some ((atts_img.getD i []).take 1 ++
          (atts_img.getD i [] ++ (toRegressTokens M text_input).2.getD i []))) := by
  have hids : (toRegressTokens M text_input).1 =
      (text_input.map fun t => (M.llama_tok_plain (t ++ M.end_sym)).take M.max_txt_len).map
        (padRight M.pad_token_id
          (maxRowLen (text_input.map fun t =>
            (M.llama_tok_plain (t ++ M.end_sym)).take M.max_txt_len))) := by
    unfold toRegressTokens llamaTokenizeRegress
    rw [List.map_map]
    rfl
  have hmask : (toRegressTokens M text_input).2 =
      (text_input.map fun t => (M.llama_tok_plain (t ++ M.end_sym)).take M.max_txt_len).map
        fun r => List.replicate r.length (1 : Int) ++
          List.replicate (maxRowLen (text_input.map fun t =>
            (M.llama_tok_plain (t ++ M.end_sym)).take M.max_txt_len) - r.length) 0 := by
    unfold toRegressTokens llamaTokenizeRegress
    rw [List.map_map]
    rfl
  refine ⟨hids, hmask, fun i hi => ?_⟩
  have hlid : (toRegressTokens M text_input).1.length = text_input.length := by
    rw [hids]; simp
  have hlmask : (toRegressTokens M text_input).2.length = text_input.length := by
    rw [hmask]; simp
  have hlemb : (embedTokens M (toRegressTokens M text_input).1).length
      = text_input.length := by
    simp [embedTokens, hlid]
  constructor
  · unfold forwardInputsEmbeds
    have h23 : (catD1 img_embeds (embedTokens M (toRegressTokens M text_input).1)).length
        = text_input.length := by
      rw [length_catD1, hib, hlemb]; omega
    have hlb : (bosEmbeds M img_embeds.length).length = img_embeds.length := by
      simp [bosEmbeds]
    rw [getElem?_eq_some_getD _ i (by rw [length_catD1, hlb, hib, h23]; omega)]
    rw [getD_catD1_of_lt _ _ i (by omega) (by omega)]
    rw [getD_catD1_of_lt _ _ i (by omega) (by omega)]
    rw [show (bosEmbeds M img_embeds.length).getD i [] = [M.embed_tokens M.bos_token_id] from
      getD_replicate_of_lt _ _ i (by omega)]
    rw [show (embedTokens M (toRegressTokens M text_input).1).getD i []
        = ((toRegressTokens M text_input).1.getD i []).map M.embed_tokens from
      getD_map_nil _ rfl _ i]
  · unfold forwardAttentionMask
    have h23 : (catD1 atts_img (toRegressTokens M text_input).2).length
        = text_input.length := by
      rw [length_catD1, hab, hlmask]; omega
    have hlb : (attsBos atts_img).length = atts_img.length := by
      simp [attsBos]
    rw [getElem?_eq_some_getD _ i (by rw [length_catD1, hlb, hab, h23]; omega)]
    rw [getD_catD1_of_lt _ _ i (by omega) (by omega)]
    rw [getD_catD1_of_lt _ _ i (by omega) (by omega)]
    rw [show (attsBos atts_img).getD i [] = (atts_img.getD i []).take 1 from
      getD_map_nil _ rfl _ i]

/-- Witness for claim C7 at a concrete one-element batch. -/
theorem forward_lm_input_assembly_app :
    ([[[7]]] : Emb).length = [['y']].length ∧ ([[1]] : Mask).length = [['y']].length ∧
    (((toRegressTokens trivialModel [['y']]).1 =
      ([['y']].map fun t =>
        (trivialModel.llama_tok_plain (t ++ trivialModel.end_sym)).take
          trivialModel.max_txt_len).map
        (padRight trivialModel.pad_token_id
          (maxRowLen ([['y']].map fun t =>
            (trivialModel.llama_tok_plain (t ++ trivialModel.end_sym)).take
              trivialModel.max_txt_len)))) ∧
    ((toRegressTokens trivialModel [['y']]).2 =
      ([['y']].map fun t =>
        (trivialModel.llama_tok_plain (t ++ trivialModel.end_sym)).take
          trivialModel.max_txt_len).map
        fun r => List.replicate r.length (1 : Int) ++
          List.replicate (maxRowLen ([['y']].map fun t =>
            (trivialModel.llama_tok_plain (t ++ trivialModel.end_sym)).take
              trivialModel.max_txt_len) - r.length) 0) ∧
    (∀ i, i < [['y']].length →
      (forwardInputsEmbeds trivialModel [[[7]]] [['y']])[i]? =
        some ([trivialModel.embed_tokens trivialModel.bos_token_id] ++
          (([[[7]]] : Emb).getD i [] ++
            ((toRegressTokens trivialModel [['y']]).1.getD i []).map
              trivialModel.embed_tokens)) ∧
      (forwardAttentionMask trivialModel [[1]] [['y']])[i]? =
        some ((([[1]] : Mask).getD i []).take 1 ++
          (([[1]] : Mask).getD i [] ++ (toRegressTokens trivialModel [['y']]).2.getD i [])))) :=
  ⟨rfl, rfl, forward_lm_input_assembly trivialModel [[[7]]] [[1]] [['y']] rfl rfl⟩

theorem getD_map_of_lt {α β : Type} (f : List α → List β) (l : List (List α)) (i : Nat)
    (h : i < l.length) : (l.map f).getD i [] = f (l.getD i []) := by
  rw [List.getD_eq_getElem?_getD, List.getD_eq_getElem?_getD, List.getElem?_map,
    List.getElem?_eq_getElem h]
  rfl


/-- Claim C9: in `forward`, the constructed label tensor, input-embedding
tensor and attention mask have the same per-row sequence length, namely
1 (BOS) + fused-prompt length + target-token length (the padded width of
the tokenized targets). -/
theorem forward_label_input_aligned {C K : Type} (M : ProteinChat C K)
    (img_embeds : Emb) (atts_img : Mask) (text_input : List (List Char)) (n : Nat)
    (himg : ∀ r ∈ img_embeds, r.length = n)
    (hatts : ∀ r ∈ atts_img, r.length = n)
    (hn : 0 < n)
    (hb1 : atts_img.length = img_embeds.length)
    (hb2 : img_embeds.length = text_input.length) :
    ∃ TL, TL = maxRowLen (text_input.map fun t =>
        (M.llama_tok_plain (t ++ M.end_sym)).take M.max_txt_len) ∧
      ∀ i, i < img_embeds.length →
        ((forwardTargets M atts_img text_input)[i]?).map (fun r : List Int => r.length)
            = some (1 + n + TL) ∧
        ((forwardInputsEmbeds M img_embeds text_input)[i]?).map (fun r : List Vec => r.length)
            = some (1 + n + TL) ∧
        ((forwardAttentionMask M atts_img text_input)[i]?).map (fun r : List Int => r.length)
            = some (1 + n + TL) := by
  refine ⟨_, rfl, fun i hi => ?_⟩
  have hids : (toRegressTokens M text_input).1 =
      (text_input.map fun t => (M.llama_tok_plain (t ++ M.end_sym)).take M.max_txt_len).map
        (padRight M.pad_token_id
          (maxRowLen (text_input.map fun t =>
            (M.llama_tok_plain (t ++ M.end_sym)).take M.max_txt_len))) := by
    unfold toRegressTokens llamaTokenizeRegress
    rw [List.map_map]
    rfl
  have hmask : (toRegressTokens M text_input).2 =
      (text_input.map fun t => (M.llama_tok_plain (t ++ M.end_sym)).take M.max_txt_len).map
        fun r => List.replicate r.length (1 : Int) ++
          List.replicate (maxRowLen (text_input.map fun t =>
            (M.llama_tok_plain (t ++ M.end_sym)).take M.max_txt_len) - r.length) 0 := by
    unfold toRegressTokens llamaTokenizeRegress
    rw [List.map_map]
    rfl
  have htlen : (text_input.map fun t =>
      (M.llama_tok_plain (t ++ M.end_sym)).take M.max_txt_len).length
      = text_input.length := by simp
  have hitr : i < (text_input.map fun t =>
      (M.llama_tok_plain (t ++ M.end_sym)).take M.max_txt_len).length := by omega
  have hrle : ((text_input.map fun t =>
      (M.llama_tok_plain (t ++ M.end_sym)).take M.max_txt_len).getD i []).length ≤
      maxRowLen (text_input.map fun t =>
        (M.llama_tok_plain (t ++ M.end_sym)).take M.max_txt_len) :=
    maxRowLen_ge _ _ (getD_mem _ i hitr)
  have hidrow : ((toRegressTokens M text_input).1.getD i []).length =
      maxRowLen (text_input.map fun t =>
        (M.llama_tok_plain (t ++ M.end_sym)).take M.max_txt_len) := by
    rw [hids, getD_map_of_lt _ _ i hitr]
    exact padRight_length _ _ _ hrle
  have hmaskrow : ((toRegressTokens M text_input).2.getD i []).length =
      maxRowLen (text_input.map fun t =>
        (M.llama_tok_plain (t ++ M.end_sym)).take M.max_txt_len) := by
    rw [hmask, getD_map_of_lt _ _ i hitr]
    rw [List.length_append, List.length_replicate, List.length_replicate]
    omega
  have hidlen : (toRegressTokens M text_input).1.length = text_input.length := by
    rw [hids]; simp
  have hmasklen : (toRegressTokens M text_input).2.length = text_input.length := by
    rw [hmask]; simp
  have hd1 : dim1 atts_img = n := by
    have hne : atts_img ≠ [] := by
      intro hc
      rw [hc] at hb1
      simp at hb1
      omega
    exact hatts _ (headD_mem _ hne)
  have himgrow : (img_embeds.getD i []).length = n :=
    himg _ (getD_mem _ i (by omega))
  have hattsrow : (atts_img.getD i []).length = n :=
    hatts _ (getD_mem _ i (by omega))
  refine ⟨?_, ?_, ?_⟩
  · unfold forwardTargets
    have hie : i < (emptyTargets atts_img).length := by simp [emptyTargets]; omega
    have him : i < (maskedTargets M text_input).length := by
      unfold maskedTargets
      simp [hidlen]
      omega
    rw [getElem?_catD1_of_lt _ _ i hie him]
    rw [Option.map_some']
    refine congrArg some ?_
    have hempty : (emptyTargets atts_img).getD i [] =
        List.replicate (dim1 atts_img + 1) (-100) := by
      unfold emptyTargets
      exact getD_replicate_of_lt _ _ i (by omega)
    have hmrow : ((maskedTargets M text_input).getD i []).length =
        maxRowLen (text_input.map fun t =>
          (M.llama_tok_plain (t ++ M.end_sym)).take M.max_txt_len) := by
      unfold maskedTargets
      rw [getD_map_of_lt _ _ i (by omega), List.length_map, hidrow]
    rw [List.length_append, hempty, List.length_replicate, hmrow, hd1]
    omega
  · unfold forwardInputsEmbeds
    have hlb : (bosEmbeds M img_embeds.length).length = img_embeds.length := by
      simp [bosEmbeds]
    have hlemb : (embedTokens M (toRegressTokens M text_input).1).length
        = text_input.length := by
      simp [embedTokens, hidlen]
    rw [getElem?_catD1_of_lt _ _ i (by omega)
      (by rw [length_catD1, hlemb]; omega)]
    rw [getD_catD1_of_lt _ _ i (by omega) (by omega)]
    rw [Option.map_some']
    refine congrArg some ?_
    have hbrow : (bosEmbeds M img_embeds.length).getD i []
        = [M.embed_tokens M.bos_token_id] :=
      getD_replicate_of_lt _ _ i (by omega)
    have herow : ((embedTokens M (toRegressTokens M text_input).1).getD i []).length =
        maxRowLen (text_input.map fun t =>
          (M.llama_tok_plain (t ++ M.end_sym)).take M.max_txt_len) := by
      unfold embedTokens
      rw [getD_map_of_lt _ _ i (by omega), List.length_map, hidrow]
    rw [List.length_append, List.length_append, hbrow, herow, himgrow,
      List.length_singleton]
    omega
  · unfold forwardAttentionMask
    have hlb : (attsBos atts_img).length = atts_img.length := by
      simp [attsBos]
    rw [getElem?_catD1_of_lt _ _ i (by omega)
      (by rw [length_catD1, hmasklen]; omega)]
    rw [getD_catD1_of_lt _ _ i (by omega) (by omega)]
    rw [Option.map_some']
    refine congrArg some ?_
    have hbrow : ((attsBos atts_img).getD i []).length = 1 := by
      unfold attsBos
      rw [getD_map_of_lt _ _ i (by omega), List.length_take, hattsrow]
      omega
    rw [List.length_append, List.length_append, hbrow, hattsrow, hmaskrow]
    omega

/-- Witness for claim C9 at a concrete one-element batch with fused length
one. -/
theorem forward_label_input_aligned_app :
    (∀ r ∈ ([[[7]]] : Emb), r.length = 1) ∧ (∀ r ∈ ([[1]] : Mask), r.length = 1) ∧
    0 < 1 ∧ ([[1]] : Mask).length = ([[[7]]] : Emb).length ∧
    ([[[7]]] : Emb).length = [['y']].length ∧
    (∃ TL, TL = maxRowLen ([['y']].map fun t =>
        (trivialModel.llama_tok_plain (t ++ trivialModel.end_sym)).take
          trivialModel.max_txt_len) ∧
      ∀ i, i < ([[[7]]] : Emb).length →
        ((forwardTargets trivialModel [[1]] [['y']])[i]?).map (fun r : List Int => r.length)
            = some (1 + 1 + TL) ∧
        ((forwardInputsEmbeds trivialModel [[[7]]] [['y']])[i]?).map
            (fun r : List Vec => r.length) = some (1 + 1 + TL) ∧
        ((forwardAttentionMask trivialModel [[1]] [['y']])[i]?).map
            (fun r : List Int => r.length) = some (1 + 1 + TL)) :=
  ⟨by decide, by decide, by decide, rfl, rfl,
    forward_label_input_aligned trivialModel [[[7]]] [[1]] [['y']] 1
      (by decide) (by decide) (by decide) rfl rfl⟩

theorem getElem?_len_catD1 {α β : Type} (xs ys : List (List α)) (us vs : List (List β))
    (hx : ∀ i : Nat, (xs[i]?).map List.length = (us[i]?).map List.length)
    (hy : ∀ i : Nat, (ys[i]?).map List.length = (vs[i]?).map List.length) :
    ∀ i : Nat, ((catD1 xs ys)[i]?).map List.length
        = ((catD1 us vs)[i]?).map List.length := by
  intro i
  rw [getElem?_catD1, getElem?_catD1]
  have h1 := hx i
  have h2 := hy i
  cases hxs : xs[i]? with
  | none =>
    rw [hxs] at h1
    have hus : us[i]? = none := by
      cases hv : us[i]? with
      | none => rfl
      | some u => rw [hv] at h1; simp at h1
    rw [hus]
    rfl
  | some x =>
    rw [hxs] at h1
    cases hus : us[i]? with
    | none => rw [hus] at h1; simp at h1
    | some u =>
      rw [hus] at h1
      have hxu : x.length = u.length := by simpa using h1
      cases hys : ys[i]? with
      | none =>
        rw [hys] at h2
        have hvs : vs[i]? = none := by
          cases hv : vs[i]? with
          | none => rfl
          | some v => rw [hv] at h2; simp at h2
        rw [hvs]
        rfl
      | some y =>
        rw [hys] at h2
        cases hvs : vs[i]? with
        | none => rw [hvs] at h2; simp at h2
        | some v =>
          rw [hvs] at h2
          have hyv : y.length = v.length := by simpa using h2
          simp [List.length_append, hxu, hyv]

theorem noSpecial_emb_mask_aligned {C K : Type} (M : ProteinChat C K) (l : List (List Char)) :
    ∀ i : Nat, ((embedTokens M (llamaTokenizeNoSpecial M l).1)[i]?).map List.length
      = (((llamaTokenizeNoSpecial M l).2 : Mask)[i]?).map List.length := by
  intro i
  unfold embedTokens llamaTokenizeNoSpecial
  simp only [getElem?_map_length]

theorem padded_emb_mask_aligned {C K : Type} (M : ProteinChat C K) (ids : List (List Int))
    (pad : Int) (L : Nat) :
    ∀ i : Nat, ((embedTokens M (ids.map (padRight pad L)))[i]?).map List.length
      = ((ids.map fun r => List.replicate r.length (1 : Int) ++
          List.replicate (L - r.length) 0)[i]?).map List.length := by
  intro i
  unfold embedTokens
  rw [List.map_map]
  rw [List.getElem?_map, List.getElem?_map]
  cases ids[i]? with
  | none => rfl
  | some r => simp [padRight, Function.comp]

theorem specialPad_emb_mask_aligned {C K : Type} (M : ProteinChat C K) (l : List (List Char)) :
    ∀ i : Nat, ((embedTokens M (llamaTokenizeSpecialPad M l).1)[i]?).map List.length
      = (((llamaTokenizeSpecialPad M l).2 : Mask)[i]?).map List.length :=
  fun i => padded_emb_mask_aligned M (l.map M.llama_tok_special) M.pad_token_id
    (maxRowLen (l.map M.llama_tok_special)) i

/-- Claim C6: every embedding block produced or transformed by the module
satisfies the invariant that the row lengths of the (batch, length, hidden)
embedding tensor equal the row lengths of its (batch, length) attention
mask: the outputs of `encode_protein`; the outputs of `encode_str` (given
that the external structure-encoder output is shape-aligned with the
padding mask); and the outputs of `prompt_list_wrap` in both the prompt and
the no-prompt branch (given that its two modality inputs satisfy the
invariant). -/
theorem embedding_blocks_mask_aligned {C K : Type} (M : ProteinChat C K)
    (seqs : List (List Char)) (coords : C) (confidence : K) (padding_mask : BMask)
    (img_embeds str_embeds : Emb) (atts_img atts_str : Mask) (prompt : List (List Char))
    (we : Emb) (wa : Mask)
    (hstr : ∀ i : Nat,
      (((M.str_encoder coords confidence (lnotMask padding_mask)).transpose)[i]?).map
          List.length = (padding_mask[i]?).map List.length)
    (himg : ∀ i : Nat, (img_embeds[i]?).map List.length = (atts_img[i]?).map List.length)
    (hstr2 : ∀ i : Nat, (str_embeds[i]?).map List.length = (atts_str[i]?).map List.length)
    (hwrap : prompt_list_wrap M img_embeds atts_img str_embeds atts_str prompt
        = Except.ok (we, wa)) :
    (∀ i : Nat, (((encode_protein M seqs).1 : Emb)[i]?).map List.length
        = (((encode_protein M seqs).2 : Mask)[i]?).map List.length) ∧
    (∀ i : Nat,
      (((encode_str M coords confidence padding_mask).1 : Emb)[i]?).map List.length
        = (((encode_str M coords confidence padding_mask).2 : Mask)[i]?).map List.length) ∧
    (∀ i : Nat, (we[i]?).map List.length = (wa[i]?).map List.length) := by
  refine ⟨?_, ?_, ?_⟩
  · intro i
    unfold encode_protein
    simp only [getElem?_map_length]
  · intro i
    unfold encode_str boolMaskToLong
    simp only [getElem?_map_length]
    exact hstr i
  · by_cases hp : prompt = []
    · unfold prompt_list_wrap at hwrap
      rw [if_pos hp] at hwrap
      simp only [Except.ok.injEq, Prod.mk.injEq] at hwrap
      obtain ⟨h1, h2⟩ := hwrap
      subst h1
      subst h2
      exact getElem?_len_catD1 _ _ _ _ himg hstr2
    · cases hcp : collectParts prompt with
      | error e =>
        unfold prompt_list_wrap at hwrap
        rw [if_neg hp, hcp] at hwrap
        simp at hwrap
      | ok parts =>
        rw [prompt_list_wrap_eq_of_parts M img_embeds str_embeds atts_img atts_str prompt
          parts hp hcp] at hwrap
        simp only [Except.ok.injEq, Prod.mk.injEq] at hwrap
        obtain ⟨h1, h2⟩ := hwrap
        subst h1
        subst h2
        exact getElem?_len_catD1 _ _ _ _ (noSpecial_emb_mask_aligned M _)
          (getElem?_len_catD1 _ _ _ _ himg
            (getElem?_len_catD1 _ _ _ _ (noSpecial_emb_mask_aligned M _)
              (getElem?_len_catD1 _ _ _ _ hstr2 (specialPad_emb_mask_aligned M _))))

/-- Witness for claim C6 at a concrete instantiation (one batch row, empty
prompt list, so the no-prompt branch of the wrap is exercised). -/
theorem embedding_blocks_mask_aligned_app :
    (∀ i : Nat,
      (((trivialModel.str_encoder () () (lnotMask [[true]])).transpose)[i]?).map
          List.length = (([[true]] : BMask)[i]?).map List.length) ∧
    (∀ i : Nat, (([[[5]]] : Emb)[i]?).map List.length
        = (([[1]] : Mask)[i]?).map List.length) ∧
    (∀ i : Nat, (([[[6]]] : Emb)[i]?).map List.length
        = (([[1]] : Mask)[i]?).map List.length) ∧
    prompt_list_wrap trivialModel [[[5]]] [[1]] [[[6]]] [[1]] []
        = Except.ok ([[[5], [6]]], [[1, 1]]) ∧
    ((∀ i : Nat, (((encode_protein trivialModel [['A']]).1 : Emb)[i]?).map List.length
        = (((encode_protein trivialModel [['A']]).2 : Mask)[i]?).map List.length) ∧
    (∀ i : Nat,
      (((encode_str trivialModel () () [[true]]).1 : Emb)[i]?).map List.length
        = (((encode_str trivialModel () () [[true]]).2 : Mask)[i]?).map List.length) ∧
    (∀ i : Nat, (([[[5], [6]]] : Emb)[i]?).map List.length
        = (([[1, 1]] : Mask)[i]?).map List.length)) := by
  have h1 : ∀ i : Nat,
      (((trivialModel.str_encoder () () (lnotMask [[true]])).transpose)[i]?).map
          List.length = (([[true]] : BMask)[i]?).map List.length := by
    intro i
    cases i with
    | zero => rfl
    | succ n => rfl
  have h2 : ∀ i : Nat, (([[[5]]] : Emb)[i]?).map List.length
      = (([[1]] : Mask)[i]?).map List.length := by
    intro i
    cases i with
    | zero => rfl
    | succ n => rfl
  have h3 : ∀ i : Nat, (([[[6]]] : Emb)[i]?).map List.length
      = (([[1]] : Mask)[i]?).map List.length := by
    intro i
    cases i with
    | zero => rfl
    | succ n => rfl
  exact ⟨h1, h2, h3, rfl,
    embedding_blocks_mask_aligned trivialModel [['A']] () () [[true]]
      [[[5]]] [[[6]]] [[1]] [[1]] [] [[[5], [6]]] [[1, 1]] h1 h2 h3 rfl⟩

/-- Claim C10: the attention entry of the prepended BOS position is not
fixed to one: `forward` copies it from the first column of the fused prompt
attention mask (`atts_bos = atts_img[:, :1]`), so for every batch row the
BOS position of the assembled attention mask carries exactly the first
fused-prompt attention value.  The second conjunct exhibits a concrete run
whose first fused attention entry is 0 and whose assembled mask therefore
starts with 0, not 1. -/
theorem forward_bos_attention_copied {C K : Type} (M : ProteinChat C K)
    (atts_img : Mask) (text_input : List (List Char)) (i : Nat) (r : List Int)
    (hr : atts_img[i]? = some r) (hne : r ≠ [])
    (hb : atts_img.length = text_input.length) :
    (∃ row, (forwardAttentionMask M atts_img text_input)[i]? = some row ∧
      row.head? = r.head?) ∧
    (forwardAttentionMask trivialModel [[0, 1]] [[]])[0]?
      = some ([0] ++ ([0, 1] ++ [1])) := by
  have hlt : i < atts_img.length := by
    by_contra hge
    rw [List.getElem?_eq_none (by omega)] at hr
    cases hr
  have hmlen : (toRegressTokens M text_input).2.length = text_input.length := by
    simp [toRegressTokens, llamaTokenizeRegress]
  have hblen : (attsBos atts_img).length = atts_img.length := by simp [attsBos]
  have hgd : atts_img.getD i [] = r := by
    rw [List.getD_eq_getElem?_getD, hr]
    rfl
  constructor
  · refine ⟨(attsBos atts_img).getD i [] ++
      (atts_img.getD i [] ++ (toRegressTokens M text_input).2.getD i []), ?_, ?_⟩
    · unfold forwardAttentionMask
      rw [getElem?_eq_some_getD _ i
        (by rw [length_catD1, hblen, length_catD1]; omega)]
      rw [getD_catD1_of_lt _ _ i (by omega) (by rw [length_catD1]; omega)]
      rw [getD_catD1_of_lt _ _ i (by omega) (by omega)]
    · obtain ⟨x, r', hx⟩ := List.exists_cons_of_ne_nil hne
      subst hx
      have htake : (attsBos atts_img).getD i [] = (x :: r').take 1 := by
        unfold attsBos
        rw [getD_map_of_lt _ _ i (by omega), hgd]
      rw [htake]
      rfl
  · rfl

/-- Witness for claim C10 at a one-row mask whose first fused entry is 0. -/
theorem forward_bos_attention_copied_app :
    ([[0, 1]] : Mask)[0]? = some [0, 1] ∧ ([0, 1] : List Int) ≠ [] ∧
    ([[0, 1]] : Mask).length = [ ([] : List Char) ].length ∧
    ((∃ row, (forwardAttentionMask trivialModel [[0, 1]] [[]])[0]? = some row ∧
      row.head? = ([0, 1] : List Int).head?) ∧
    (forwardAttentionMask trivialModel [[0, 1]] [[]])[0]?
      = some ([0] ++ ([0, 1] ++ [1]))) :=
  ⟨rfl, by decide, rfl,
    forward_bos_attention_copied trivialModel [[0, 1]] [[]] 0 [0, 1] rfl (by decide) rfl⟩

/-- Claim C8: `forward` is a deterministic function of the sample record and
the (frozen) sub-model weights: two runs on equal inputs under the same
model state return the same loss. -/
theorem forward_deterministic {C K : Type} (M : ProteinChat C K) (s₁ s₂ : Samples)
    (h : s₁ = s₂) : forward M s₁ = forward M s₂ := by
  rw [h]

/-- Witness for claim C8 at a concrete record. -/
theorem forward_deterministic_app :
    (Samples.mk [['A']] [] [['y']] = Samples.mk [['A']] [] [['y']]) ∧
    forward trivialModel (Samples.mk [['A']] [] [['y']]) =
      forward trivialModel (Samples.mk [['A']] [] [['y']]) :=
  ⟨rfl, forward_deterministic trivialModel (Samples.mk [['A']] [] [['y']])
    (Samples.mk [['A']] [] [['y']]) rfl⟩
